/-
Verification of the RA8835A LCD-controller driver (Rust, `src/src/lib.rs` and
`src/examples/stm32f411/src/display.rs`) against its natural-language
specification.

Shallow embedding conventions:
* `u8` / `u16` values are modelled as `Nat`; `i16` values as `Int`.
* Rust arithmetic is modelled with checked ("debug") semantics: an operation
  that would panic (division by zero, add/sub/mul overflow, `i16::abs` of
  `i16::MIN`) is modelled as `none`; `as` casts are modelled as the
  truncation they perform (no panic).
* Fallible Rust functions returning `Result` are modelled with `Except`.
* The byte-level protocol emitted by the driver is modelled as a trace:
  a `List Tr` of transfers (command byte / data byte / memory read), which is
  the granularity at which the driver composes `write_command` / `write_data`
  / `read_data`.  The pin-level behaviour of `read_data` (bus direction,
  read strobe) is modelled separately as a `List Ev` of pin events.
-/
import Mathlib

set_option linter.unusedVariables false

/-- Checked `u16` arithmetic: a result above 65535 is an overflow panic. -/
def chkU16 (v : Nat) : Option Nat :=
  if v ≤ 65535 then some v else none

/-- Checked `u8` arithmetic: a result above 255 is an overflow panic. -/
def chkU8 (v : Nat) : Option Nat :=
  if v ≤ 255 then some v else none

/-- The driver's display geometry, `struct Config` in `src/src/lib.rs`. -/
structure Config where
  font_width : Nat
  font_height : Nat
  screen_width : Nat
  screen_height : Nat
  text_layer_start : Nat
  graphics_layer_start : Nat
deriving DecidableEq, Repr

/-- `Config::new` from `src/src/lib.rs` (lines 57-72), with checked Rust
arithmetic: `none` models a panic (division by zero or overflow),
`some (Except.error _)` models `Err`, `some (Except.ok _)` models `Ok`.

```
let chars_per_line = screen_width / font_width as u16;      // panics if font_width = 0
let bytes_per_char = ((font_width + 7) / 8) as u16;         // u8 add: panics if font_width + 7 > 255
let cr = chars_per_line * bytes_per_char;                   // u16 mul: panics on overflow
if cr > 239 { return Err("CR exceeds maximum 239"); }
let lines = screen_height / font_height as u16;             // panics if font_height = 0
let text_layer_size = chars_per_line * lines;               // u16 mul: panics on overflow
let text_layer_start = 0x0000;
let graphics_layer_start = text_layer_start + text_layer_size;
```
-/
def Config.new (font_width font_height screen_width screen_height : Nat) :
    Option (Except String Config) :=
  -- `screen_width / font_width`: u16 division, panics on zero divisor
  if font_width = 0 then none else
  -- `font_width + 7`: u8 addition, panics on overflow
  if font_width + 7 > 255 then none else
  -- `chars_per_line * bytes_per_char`: u16 multiplication, panics on overflow
  if screen_width / font_width * ((font_width + 7) / 8) > 65535 then none else
  if screen_width / font_width * ((font_width + 7) / 8) > 239 then
    some (Except.error "CR exceeds maximum 239") else
  -- `screen_height / font_height`: u16 division, panics on zero divisor
  if font_height = 0 then none else
  -- `chars_per_line * lines`: u16 multiplication, panics on overflow
  if screen_width / font_width * (screen_height / font_height) > 65535 then none else
  some (Except.ok
    { font_width := font_width, font_height := font_height
      screen_width := screen_width, screen_height := screen_height
      text_layer_start := 0
      graphics_layer_start :=
        0 + screen_width / font_width * (screen_height / font_height) })

/-- For `1 ≤ fw`, `ceil((fw+7)/8) ≤ fw`, hence the column register
`(sw/fw) * ((fw+7)/8)` never overflows `u16` when `sw` is a `u16`. -/
lemma cr_le_screen_width (fw sw : Nat) (h1 : 1 ≤ fw) :
    sw / fw * ((fw + 7) / 8) ≤ sw := by
  have h2 : (fw + 7) / 8 ≤ fw := by
    have : fw + 7 ≤ 8 * fw := by omega
    calc (fw + 7) / 8 ≤ 8 * fw / 8 := Nat.div_le_div_right this
    _ = fw := by omega
  calc sw / fw * ((fw + 7) / 8) ≤ sw / fw * fw :=
        Nat.mul_le_mul_left _ h2
  _ ≤ sw := Nat.div_mul_le_self sw fw

/-- C1.  For every input with `font_width ∈ 1..=248` (all arguments in their
declared `u8`/`u16` ranges): `Config::new` returns an error iff
`chars_per_line * bytes_per_char > 239`; whenever it returns `Ok`, the config
has `text_layer_start = 0` and
`graphics_layer_start = chars_per_line * (screen_height / font_height)`;
and `Config::new(8,8,320,240)` succeeds with `text_layer_start = 0` and
`graphics_layer_start = 1200`. -/
theorem config_new_spec (fw fh sw sh : Nat)
    (h1 : 1 ≤ fw) (h2 : fw ≤ 248) (h3 : fh ≤ 255) (h4 : sw ≤ 65535)
    (h5 : sh ≤ 65535) :
    ((∃ e, Config.new fw fh sw sh = some (Except.error e)) ↔
      sw / fw * ((fw + 7) / 8) > 239) ∧
    (∀ c, Config.new fw fh sw sh = some (Except.ok c) →
      c.text_layer_start = 0 ∧
      c.graphics_layer_start = sw / fw * (sh / fh)) ∧
    Config.new 8 8 320 240 = some (Except.ok
      { font_width := 8, font_height := 8, screen_width := 320
        screen_height := 240, text_layer_start := 0
        graphics_layer_start := 1200 }) := by
  have hcr := cr_le_screen_width fw sw h1
  refine ⟨?_, ?_, rfl⟩
  · constructor
    · rintro ⟨e, he⟩
      unfold Config.new at he
      split_ifs at he <;> simp_all <;> omega
    · intro hgt
      refine ⟨"CR exceeds maximum 239", ?_⟩
      unfold Config.new
      split_ifs <;> first | rfl | omega
  · intro c hc
    unfold Config.new at hc
    split_ifs at hc <;> simp_all
    obtain ⟨rfl⟩ := hc
    simp

/-- Witness for C1 at the concrete input `(8, 8, 320, 240)`. -/
theorem config_new_spec_witness :
    Config.new 8 8 320 240 = some (Except.ok
      { font_width := 8, font_height := 8, screen_width := 320
        screen_height := 240, text_layer_start := 0
        graphics_layer_start := 1200 }) :=
  (config_new_spec 8 8 320 240 (by decide) (by decide) (by decide)
    (by decide) (by decide)).2.2

/-- C10.  `Config::new` is not total over its declared argument types:
whenever it returns at all (rather than panicking), `1 ≤ font_width ≤ 248`
(division by zero at `font_width = 0`, `u8` overflow of `font_width + 7` at
`font_width ≥ 249`); whenever it returns `Ok`, additionally
`font_height ≥ 1` (required by the `lines` division); and conversely
`font_width = 0` or `font_width ≥ 249` always panics. -/
theorem config_new_partiality (fw fh sw sh : Nat)
    (h1 : fw ≤ 255) (h2 : fh ≤ 255) (h3 : sw ≤ 65535) (h4 : sh ≤ 65535) :
    ((∃ r, Config.new fw fh sw sh = some r) → 1 ≤ fw ∧ fw ≤ 248) ∧
    (∀ c, Config.new fw fh sw sh = some (Except.ok c) → 1 ≤ fh) ∧
    (fw = 0 → Config.new fw fh sw sh = none) ∧
    (249 ≤ fw → Config.new fw fh sw sh = none) := by
  refine ⟨?_, ?_, ?_, ?_⟩
  · rintro ⟨r, hr⟩
    unfold Config.new at hr
    split_ifs at hr <;> simp_all <;> omega
  · intro c hc
    unfold Config.new at hc
    split_ifs at hc <;> simp_all <;> omega
  · intro hfw0
    unfold Config.new
    rw [if_pos hfw0]
  · intro hbig
    unfold Config.new
    rw [if_neg (by omega), if_pos (by omega)]

/-- Witness for C10 at the concrete input `(0, 8, 320, 240)`: passing
`font_width = 0` panics (division by zero). -/
theorem config_new_partiality_witness :
    Config.new 0 8 320 240 = none :=
  (config_new_partiality 0 8 320 240 (by decide) (by decide) (by decide)
    (by decide)).2.2.1 rfl

/-! ## The byte-level protocol

`write_command` and `write_data` each emit exactly one byte transfer on the
bus (with register-select distinguishing command from data); `read_data`
performs one memory read.  Composite driver operations are modelled by the
list of transfers they emit, in order. -/

/-- Op-code of `Command::SystemSet`. -/
def Command.SystemSet : Nat := 0x40

/-- Op-code of `Command::SleepIn`. -/
def Command.SleepIn : Nat := 0x53

/-- Op-code of `Command::DisplayOff`. -/
def Command.DisplayOff : Nat := 0x58

/-- Op-code of `Command::DisplayOn`. -/
def Command.DisplayOn : Nat := 0x59

/-- Op-code of `Command::Scroll`. -/
def Command.Scroll : Nat := 0x44

/-- Op-code of `Command::CsrForm`. -/
def Command.CsrForm : Nat := 0x5D

/-- Op-code of `Command::CgRamAdr`. -/
def Command.CgRamAdr : Nat := 0x5C

/-- Op-code of `Command::CsrDirRight`. -/
def Command.CsrDirRight : Nat := 0x4C

/-- Op-code of `Command::CsrDirLeft`. -/
def Command.CsrDirLeft : Nat := 0x4D

/-- Op-code of `Command::CsrDirUp`. -/
def Command.CsrDirUp : Nat := 0x4E

/-- Op-code of `Command::CsrDirDown`. -/
def Command.CsrDirDown : Nat := 0x4F

/-- Op-code of `Command::HdotScr`. -/
def Command.HdotScr : Nat := 0x5A

/-- Op-code of `Command::Ovlay`. -/
def Command.Ovlay : Nat := 0x5B

/-- Op-code of `Command::Csrw`. -/
def Command.Csrw : Nat := 0x46

/-- Op-code of `Command::Csrr`. -/
def Command.Csrr : Nat := 0x47

/-- Op-code of `Command::Mwrite`. -/
def Command.Mwrite : Nat := 0x42

/-- Op-code of `Command::Mread`. -/
def Command.Mread : Nat := 0x43

/-- A single byte-level transfer on the controller bus: a command byte, a
data byte, or a display-memory read. -/
inductive Tr where
  | cmd (c : Nat)
  | data (d : Nat)
  | read
deriving DecidableEq, Repr

/-- Transfer emitted by `write_command` (lines 302-310): one command byte. -/
def write_command (c : Nat) : List Tr := [Tr.cmd c]

/-- Transfer emitted by `write_data` (lines 312-320): one data byte. -/
def write_data (d : Nat) : List Tr := [Tr.data d]

/-- `set_cursor_address` (lines 334-339): `Csrw`, then
`(address & 0xFF) as u8`, then `(address >> 8) as u8`.  On a `u16`,
`& 0xFF` is `% 256`, `>> 8` is `/ 256`, and the `as u8` cast is a further
`% 256` truncation. -/
def set_cursor_address (address : Nat) : List Tr :=
  write_command Command.Csrw ++ write_data (address % 256) ++
    write_data (address / 256 % 256)

/-- C6.  For every 16-bit address, `set_cursor_address` emits exactly three
transfers in order: the `Csrw` command byte, a data byte `addr % 256`
(= `addr & 0xFF`), and a data byte `addr / 256` (= `addr >> 8`): low byte
first. -/
theorem set_cursor_address_spec (addr : Nat) (h : addr ≤ 65535) :
    set_cursor_address addr =
      [Tr.cmd 0x46, Tr.data (addr % 256), Tr.data (addr / 256)] ∧
    (set_cursor_address addr).length = 3 := by
  have hhi : addr / 256 % 256 = addr / 256 := Nat.mod_eq_of_lt (by omega)
  constructor
  · simp [set_cursor_address, write_command, write_data, Command.Csrw, hhi]
  · simp [set_cursor_address, write_command, write_data]

/-- Witness for C6 at the concrete address `0xABCD`: transfers are
`Csrw`, `0xCD`, `0xAB`. -/
theorem set_cursor_address_spec_witness :
    set_cursor_address 0xABCD = [Tr.cmd 0x46, Tr.data 0xCD, Tr.data 0xAB] :=
  ((set_cursor_address_spec 0xABCD (by decide)).1).trans (by decide)

/-- The `initialize` method of the driver (lines 153-175): the System-set
stage.  Checked Rust arithmetic, `none` models a panic:
```
write_command(SystemSet);
let fx = font_width - 1;                  // u8 sub: panics if font_width = 0
let fy = font_height - 1;                 // u8 sub: panics if font_height = 0
let chars_per_line = screen_width / font_width as u16;
let bytes_per_char = ((font_width + 7) / 8) as u16;   // u8 add: overflow panic
let cr = chars_per_line * bytes_per_char;             // u16 mul: overflow panic
let lf = screen_height - 1;               // u16 sub: panics if screen_height = 0
params = [0x30, (0x01 << 7) + fx,         // u8 add: panics if 128 + fx > 255
          fy, cr as u8, cr as u8 + 4,     // u8 add: panics if cr % 256 + 4 > 255
          lf as u8, cr as u8, 0x00];
```
(The name `initialize` is kept as `systemSetSeq` here.) -/
def systemSetSeq (cfg : Config) : Option (List Tr) :=
  if cfg.font_width = 0 then none else
  if cfg.font_height = 0 then none else
  if cfg.font_width + 7 > 255 then none else
  if cfg.screen_width / cfg.font_width * ((cfg.font_width + 7) / 8) > 65535
    then none else
  if cfg.screen_height = 0 then none else
  if 128 + (cfg.font_width - 1) > 255 then none else
  if cfg.screen_width / cfg.font_width * ((cfg.font_width + 7) / 8) % 256 + 4
      > 255 then none else
  some (write_command Command.SystemSet ++
    write_data 0x30 ++
    write_data (128 + (cfg.font_width - 1)) ++
    write_data (cfg.font_height - 1) ++
    write_data (cfg.screen_width / cfg.font_width *
      ((cfg.font_width + 7) / 8) % 256) ++
    write_data (cfg.screen_width / cfg.font_width *
      ((cfg.font_width + 7) / 8) % 256 + 4) ++
    write_data ((cfg.screen_height - 1) % 256) ++
    write_data (cfg.screen_width / cfg.font_width *
      ((cfg.font_width + 7) / 8) % 256) ++
    write_data 0x00)

/-- The config produced by `Config::new(8, 8, 320, 240)`. -/
def cfg320 : Config :=
  { font_width := 8, font_height := 8, screen_width := 320
    screen_height := 240, text_layer_start := 0, graphics_layer_start := 1200 }

/-- Counterexample to C4 as stated: on the config from
`Config::new(8,8,320,240)` (CR = 40), the second parameter byte is
`0x87 = 135`, not `font_width - 1 = 7`, and the eighth parameter byte (APH)
is `0`, not `CR = 40`. -/
theorem system_set_params_counterexample :
    Config.new 8 8 320 240 = some (Except.ok cfg320) ∧
    systemSetSeq cfg320 = some
      [Tr.cmd 0x40, Tr.data 0x30, Tr.data 135, Tr.data 7, Tr.data 40,
       Tr.data 44, Tr.data 239, Tr.data 40, Tr.data 0] ∧
    Tr.data 135 ≠ Tr.data (cfg320.font_width - 1) ∧
    Tr.data 0 ≠ Tr.data (320 / 8 * ((8 + 7) / 8)) :=
  ⟨rfl, rfl, by decide, by decide⟩

/-- C4 (amended).  For every config with `1 ≤ font_width ≤ 128`,
`font_height ≥ 1`, `screen_height ≥ 1`, `screen_width ≤ 65535` and
`CR ≤ 239`: the System-set stage sends the `SystemSet` command followed by
exactly 8 parameter bytes: the fixed control byte `0x30`,
`0x80 + (font_width - 1)` (the waveform bit OR-ed onto FX — not plain
`font_width - 1`), `font_height - 1`, `CR`, `CR + 4`,
`(screen_height - 1) % 256`, and the two address-pitch bytes `APL = CR`,
`APH = 0` (the eighth byte is `0`, not `CR`). -/
theorem system_set_params (cfg : Config)
    (h1 : 1 ≤ cfg.font_width) (h2 : cfg.font_width ≤ 128)
    (h3 : 1 ≤ cfg.font_height) (h4 : 1 ≤ cfg.screen_height)
    (h5 : cfg.screen_width ≤ 65535)
    (hcr : cfg.screen_width / cfg.font_width * ((cfg.font_width + 7) / 8)
      ≤ 239) :
    systemSetSeq cfg = some
      [Tr.cmd 0x40, Tr.data 0x30,
       Tr.data (128 + (cfg.font_width - 1)),
       Tr.data (cfg.font_height - 1),
       Tr.data (cfg.screen_width / cfg.font_width *
         ((cfg.font_width + 7) / 8)),
       Tr.data (cfg.screen_width / cfg.font_width *
         ((cfg.font_width + 7) / 8) + 4),
       Tr.data ((cfg.screen_height - 1) % 256),
       Tr.data (cfg.screen_width / cfg.font_width *
         ((cfg.font_width + 7) / 8)),
       Tr.data 0] := by
  have hmod : cfg.screen_width / cfg.font_width *
      ((cfg.font_width + 7) / 8) % 256 =
      cfg.screen_width / cfg.font_width * ((cfg.font_width + 7) / 8) :=
    Nat.mod_eq_of_lt (by omega)
  unfold systemSetSeq
  rw [if_neg (by omega), if_neg (by omega), if_neg (by omega),
    if_neg (by omega), if_neg (by omega), if_neg (by omega),
    if_neg (by omega), hmod]
  simp [write_command, write_data, Command.SystemSet]

/-- Witness for C4 (amended) at the config from `Config::new(8,8,320,240)`. -/
theorem system_set_params_witness :
    systemSetSeq cfg320 = some
      [Tr.cmd 0x40, Tr.data 0x30, Tr.data 135, Tr.data 7, Tr.data 40,
       Tr.data 44, Tr.data 239, Tr.data 40, Tr.data 0] :=
  (system_set_params cfg320 (by decide) (by decide) (by decide) (by decide)
    (by decide) (by decide)).trans (by decide)

/-- `clear_display` (lines 206-221).  Checked `u16` arithmetic on
`total_bytes = (screen_width / 8) * screen_height`; after streaming
`total_bytes` zero bytes the source runs a second, hard-coded loop
`let x = 0x04B0; for _ in x..x*20 { write_data(0x00); }`, another
`0x04B0 * 20 - 0x04B0 = 22800` zero bytes. -/
def clear_display (cfg : Config) : Option (List Tr) :=
  if cfg.screen_width / 8 * cfg.screen_height > 65535 then none else
  some (write_command Command.Csrw ++ write_data 0x00 ++ write_data 0x00 ++
    write_command Command.CsrDirRight ++ write_command Command.Mwrite ++
    List.replicate (cfg.screen_width / 8 * cfg.screen_height) (Tr.data 0x00) ++
    List.replicate (0x04B0 * 20 - 0x04B0) (Tr.data 0x00))

/-- Counterexample to C5 as stated: on the config from
`Config::new(8,8,320,240)` the stream after `Mwrite` is 32400 zero bytes,
which is not `screen_width/8 * screen_height = 9600` nor any integer
multiple of it (32400 = 9600 + 22800, and 32400 % 9600 = 3600 ≠ 0). -/
theorem clear_display_counterexample :
    clear_display cfg320 = some
      ([Tr.cmd 0x46, Tr.data 0, Tr.data 0, Tr.cmd 0x4C, Tr.cmd 0x42] ++
        List.replicate 32400 (Tr.data 0)) ∧
    32400 % (320 / 8 * 240) ≠ 0 := by
  constructor
  · unfold clear_display
    rw [if_neg (by decide)]
    have e1 : cfg320.screen_width / 8 * cfg320.screen_height = 9600 := by
      decide
    have e2 : (0x04B0 * 20 - 0x04B0 : Nat) = 22800 := by decide
    have e3 : (32400 : Nat) = 9600 + 22800 := by decide
    rw [e1, e2, e3, List.replicate_add]
    simp only [write_command, write_data, Command.Csrw, Command.CsrDirRight,
      Command.Mwrite, List.append_assoc, List.cons_append, List.nil_append,
      List.singleton_append]
  · decide

/-- C5 (amended).  For every config whose memory span fits a `u16`,
`clear_display` sets the cursor to address 0 (`Csrw`, `0x00`, `0x00`), sets
cursor direction right, issues `Mwrite`, and then writes exactly
`screen_width/8 * screen_height + 22800` zero data bytes: the full memory
span plus 22800 extra zeros from a leftover hard-coded loop (not a
layer-count multiple of the span). -/
theorem clear_display_bytes (cfg : Config)
    (h : cfg.screen_width / 8 * cfg.screen_height ≤ 65535) :
    clear_display cfg = some
      ([Tr.cmd 0x46, Tr.data 0, Tr.data 0, Tr.cmd 0x4C, Tr.cmd 0x42] ++
        List.replicate (cfg.screen_width / 8 * cfg.screen_height + 22800)
          (Tr.data 0)) := by
  unfold clear_display
  have e2 : (0x04B0 * 20 - 0x04B0 : Nat) = 22800 := by decide
  rw [if_neg (by omega), e2, List.replicate_add]
  simp only [write_command, write_data, Command.Csrw, Command.CsrDirRight,
    Command.Mwrite, List.append_assoc, List.cons_append, List.nil_append,
    List.singleton_append]

/-- Witness for C5 (amended) at the config from `Config::new(8,8,320,240)`:
9600 + 22800 = 32400 zero bytes. -/
theorem clear_display_bytes_witness :
    clear_display cfg320 = some
      ([Tr.cmd 0x46, Tr.data 0, Tr.data 0, Tr.cmd 0x4C, Tr.cmd 0x42] ++
        List.replicate (320 / 8 * 240 + 22800) (Tr.data 0)) :=
  clear_display_bytes cfg320 (by decide)

/-- `Result::unwrap_or(0)` on the value `read_data` returns inside
`set_pixel`. -/
def unwrap_or_zero (r : Except Unit Nat) : Nat :=
  match r with
  | Except.ok v => v
  | Except.error _ => 0

/-- `set_pixel` (lines 289-300), parameterized by the outcome `r` of the bus
read inside its `read_data` call.  Checked Rust arithmetic:
```
let bit_mask = 1 << 0x07 - (x % 8);                 // u8; shift amount ≤ 7
let bytes_per_line = screen_width / 8;
let byte_addr = graphics_layer_start + (y * bytes_per_line) + (x / 8);
                                                    // u16 mul/adds: overflow panics
set_cursor_address(byte_addr);
write_command(Mread);
let current = read_data().unwrap_or(0);
let new_data = current | bit_mask;
set_cursor_address(byte_addr);
write_command(Mwrite);
write_data(new_data);
```
-/
def set_pixel (cfg : Config) (x y : Nat) (r : Except Unit Nat) :
    Option (List Tr) :=
  if y * (cfg.screen_width / 8) > 65535 then none else
  if cfg.graphics_layer_start + y * (cfg.screen_width / 8) > 65535
    then none else
  if cfg.graphics_layer_start + y * (cfg.screen_width / 8) + x / 8 > 65535
    then none else
  some (set_cursor_address
      (cfg.graphics_layer_start + y * (cfg.screen_width / 8) + x / 8) ++
    write_command Command.Mread ++ [Tr.read] ++
    set_cursor_address
      (cfg.graphics_layer_start + y * (cfg.screen_width / 8) + x / 8) ++
    write_command Command.Mwrite ++
    write_data (unwrap_or_zero r ||| 1 <<< (7 - x % 8)))

/-- Modelled from the spec (for comparison against the source): the byte
address the spec claims `set_pixel` addresses,
`graphics_layer_start + y * (screen_width/8) + x / font_width`. -/
def spec_byte_addr (cfg : Config) (x y : Nat) : Nat :=
  cfg.graphics_layer_start + y * (cfg.screen_width / 8) + x / cfg.font_width

/-- Modelled from the spec (for comparison against the source): the bit mask
the spec claims `set_pixel` uses, `1 << (7 - x mod font_width)`. -/
def spec_bit_mask (cfg : Config) (x : Nat) : Nat :=
  1 <<< (7 - x % cfg.font_width)

/-- The config produced by `Config::new(6, 8, 320, 240)` (font width 6). -/
def cfg6 : Config :=
  { font_width := 6, font_height := 8, screen_width := 320
    screen_height := 240, text_layer_start := 0, graphics_layer_start := 1590 }

/-- Counterexample to C3 as stated: with font width 6 (config from
`Config::new(6,8,320,240)`, graphics layer at 1590), `set_pixel(6, 0)`
addresses byte `1590 + 0 + 6/8 = 1590` (cursor bytes `54`, `6`) and writes
mask `1 << (7 - 6%8) = 2`, whereas the spec formulas give byte
`1590 + 6/6 = 1591` and mask `1 << (7 - 6%6) = 128`: the code uses the
fixed constant 8, not `font_width`. -/
theorem set_pixel_addressing_counterexample :
    Config.new 6 8 320 240 = some (Except.ok cfg6) ∧
    set_pixel cfg6 6 0 (Except.ok 0) = some
      [Tr.cmd 0x46, Tr.data 54, Tr.data 6, Tr.cmd 0x43, Tr.read,
       Tr.cmd 0x46, Tr.data 54, Tr.data 6, Tr.cmd 0x42, Tr.data 2] ∧
    spec_byte_addr cfg6 6 0 ≠ 1590 ∧
    spec_bit_mask cfg6 6 ≠ 2 :=
  ⟨rfl, rfl, by decide, by decide⟩

/-- C3 (amended).  For every config and pixel (with the address computation
in `u16` range), `set_pixel` operates on the byte at
`graphics_layer_start + y * (screen_width/8) + x/8` and modifies the bit
selected by mask `1 << (7 - x % 8)`: both the column index and the bit
position use the fixed constant 8, independent of `font_width`. -/
theorem set_pixel_addressing (cfg : Config) (x y : Nat) (r : Except Unit Nat)
    (h : cfg.graphics_layer_start + y * (cfg.screen_width / 8) + x / 8
      ≤ 65535) :
    set_pixel cfg x y r = some
      [Tr.cmd 0x46,
       Tr.data ((cfg.graphics_layer_start + y * (cfg.screen_width / 8)
         + x / 8) % 256),
       Tr.data ((cfg.graphics_layer_start + y * (cfg.screen_width / 8)
         + x / 8) / 256 % 256),
       Tr.cmd 0x43, Tr.read,
       Tr.cmd 0x46,
       Tr.data ((cfg.graphics_layer_start + y * (cfg.screen_width / 8)
         + x / 8) % 256),
       Tr.data ((cfg.graphics_layer_start + y * (cfg.screen_width / 8)
         + x / 8) / 256 % 256),
       Tr.cmd 0x42,
       Tr.data (unwrap_or_zero r ||| 1 <<< (7 - x % 8))] := by
  unfold set_pixel
  rw [if_neg (by omega), if_neg (by omega), if_neg (by omega)]
  simp [set_cursor_address, write_command, write_data, Command.Csrw,
    Command.Mread, Command.Mwrite]

/-- Witness for C3 (amended) at `cfg320`, pixel (13, 2), read value 0x50:
byte address `1200 + 2*40 + 1 = 1281`, mask `1 << (7 - 5) = 4`. -/
theorem set_pixel_addressing_witness :
    set_pixel cfg320 13 2 (Except.ok 0x50) = some
      [Tr.cmd 0x46, Tr.data 1, Tr.data 5, Tr.cmd 0x43, Tr.read,
       Tr.cmd 0x46, Tr.data 1, Tr.data 5, Tr.cmd 0x42, Tr.data 0x54] :=
  (set_pixel_addressing cfg320 13 2 (Except.ok 0x50) (by decide)).trans
    (by decide)

/-- C7.  When the bus read inside `set_pixel`'s read-modify-write fails,
`set_pixel` substitutes 0 for the current byte and continues: it still
performs the write-back, the byte written is the bit mask alone
(`0 | mask = mask`), and no error is propagated (the operation still
produces a complete transfer trace). -/
theorem set_pixel_read_error_defaults (cfg : Config) (x y : Nat)
    (h : cfg.graphics_layer_start + y * (cfg.screen_width / 8) + x / 8
      ≤ 65535) :
    set_pixel cfg x y (Except.error ()) = some
      [Tr.cmd 0x46,
       Tr.data ((cfg.graphics_layer_start + y * (cfg.screen_width / 8)
         + x / 8) % 256),
       Tr.data ((cfg.graphics_layer_start + y * (cfg.screen_width / 8)
         + x / 8) / 256 % 256),
       Tr.cmd 0x43, Tr.read,
       Tr.cmd 0x46,
       Tr.data ((cfg.graphics_layer_start + y * (cfg.screen_width / 8)
         + x / 8) % 256),
       Tr.data ((cfg.graphics_layer_start + y * (cfg.screen_width / 8)
         + x / 8) / 256 % 256),
       Tr.cmd 0x42,
       Tr.data (1 <<< (7 - x % 8))] := by
  unfold set_pixel
  rw [if_neg (by omega), if_neg (by omega), if_neg (by omega)]
  simp [set_cursor_address, write_command, write_data, Command.Csrw,
    Command.Mread, Command.Mwrite, unwrap_or_zero]

/-- Witness for C7 at `cfg320`, pixel (0, 0), failed read: the write-back
byte is the mask `1 << 7 = 0x80` alone. -/
theorem set_pixel_read_error_defaults_witness :
    set_pixel cfg320 0 0 (Except.error ()) = some
      [Tr.cmd 0x46, Tr.data 176, Tr.data 4, Tr.cmd 0x43, Tr.read,
       Tr.cmd 0x46, Tr.data 176, Tr.data 4, Tr.cmd 0x42, Tr.data 0x80] :=
  (set_pixel_read_error_defaults cfg320 0 0 (by decide)).trans (by decide)

/-! ## Pin-level model of `read_data` -/

/-- A pin-level event: bus direction switches, register-select (`a0`),
read-strobe (`rd`) edges, the bus sample, and delays. -/
inductive Ev where
  | setInput
  | setOutput
  | a0High
  | a0Low
  | rdLow
  | rdHigh
  | busRead
  | delayNs (n : Nat)
deriving DecidableEq, Repr

/-- `read_data` (lines 322-332) at pin level, parameterized by the outcome
of the bus capability's `read`:
```
self.data.set_input();
self.a0.set_high();
self.rd.set_low();
self.delay.delay_ns(40);
let result = self.data.read()?;   // on Err: returns HERE, early
self.delay.delay_ns(20);
self.rd.set_high();
self.data.set_output();
Ok(result)
```
The `?` operator makes the error path skip `rd.set_high()` and
`set_output()`. -/
def read_data (busRes : Except Unit Nat) : List Ev × Except Unit Nat :=
  match busRes with
  | Except.error e =>
    ([Ev.setInput, Ev.a0High, Ev.rdLow, Ev.delayNs 40, Ev.busRead],
      Except.error e)
  | Except.ok v =>
    ([Ev.setInput, Ev.a0High, Ev.rdLow, Ev.delayNs 40, Ev.busRead,
      Ev.delayNs 20, Ev.rdHigh, Ev.setOutput], Except.ok v)

/-- C2 is violated by the code: when the bus capability's read fails,
`read_data` returns early through the `?` operator, so the bus is left in
input direction (`set_output` is never called) and the read strobe is left
asserted (`rd` is never driven high again) — while on the success path both
restorations do happen. -/
theorem read_data_error_skips_restore :
    (read_data (Except.error ())).2 = Except.error () ∧
    Ev.setOutput ∉ (read_data (Except.error ())).1 ∧
    Ev.rdHigh ∉ (read_data (Except.error ())).1 ∧
    Ev.setOutput ∈ (read_data (Except.ok 0)).1 ∧
    Ev.rdHigh ∈ (read_data (Except.ok 0)).1 :=
  ⟨rfl, by decide, by decide, by decide, by decide⟩

/-! ## `draw_rectangle` (examples/stm32f411/src/display.rs, lines 159-170) -/

/-- The pixels `draw_rectangle` plots, in call order:
```
let (start_x, end_x) = if x0 <= x1 { (x0, x1) } else { (x1, x0) };
let (start_y, end_y) = if y0 <= y1 { (y0, y1) } else { (y1, y0) };
for x in start_x..=end_x { set_pixel(x, start_y); set_pixel(x, end_y); }
for y in start_y + 1..end_y { set_pixel(start_x, y); set_pixel(end_x, y); }
```
The inclusive range `a..=b` with `a ≤ b` is `List.range (b + 1 - a)` offset
by `a`; the exclusive range `a..b` is `List.range (b - a)` offset by `a`. -/
def rect_pixels (x0 y0 x1 y1 : Nat) : List (Nat × Nat) :=
  let sx := if x0 ≤ x1 then x0 else x1
  let ex := if x0 ≤ x1 then x1 else x0
  let sy := if y0 ≤ y1 then y0 else y1
  let ey := if y0 ≤ y1 then y1 else y0
  (List.range (ex + 1 - sx)).flatMap
    (fun i => [(sx + i, sy), (sx + i, ey)]) ++
  (List.range (ey - (sy + 1))).flatMap
    (fun i => [(sx, sy + 1 + i), (ex, sy + 1 + i)])

/-- Occurrence count of a pixel in a horizontal double-row pass. -/
lemma count_hsegs (p : Nat × Nat) (s u v n : Nat) :
    ((List.range n).flatMap (fun i => [(s + i, u), (s + i, v)])).count p =
      ((if p.2 = u ∧ s ≤ p.1 ∧ p.1 < s + n then 1 else 0) +
       (if p.2 = v ∧ s ≤ p.1 ∧ p.1 < s + n then 1 else 0)) := by
  obtain ⟨a, b⟩ := p
  induction n with
  | zero =>
    simp only [List.range_zero, List.flatMap_nil, List.count_nil]
    split_ifs <;> omega
  | succ n ih =>
    rw [List.range_succ, List.flatMap_append, List.count_append, ih]
    have htail : (([n] : List Nat).flatMap
          (fun i => [(s + i, u), (s + i, v)])).count (a, b) =
        (if a = s + n ∧ b = u then 1 else 0) +
        (if a = s + n ∧ b = v then 1 else 0) := by
      simp only [List.flatMap_cons, List.flatMap_nil, List.append_nil,
        List.count_cons, List.count_nil, Prod.mk.injEq, beq_iff_eq]
      split_ifs <;> omega
    rw [htail]
    split_ifs <;> omega

/-- Occurrence count of a pixel in a vertical double-column pass. -/
lemma count_vsegs (p : Nat × Nat) (u v s n : Nat) :
    ((List.range n).flatMap (fun i => [(u, s + i), (v, s + i)])).count p =
      ((if p.1 = u ∧ s ≤ p.2 ∧ p.2 < s + n then 1 else 0) +
       (if p.1 = v ∧ s ≤ p.2 ∧ p.2 < s + n then 1 else 0)) := by
  obtain ⟨a, b⟩ := p
  induction n with
  | zero =>
    simp only [List.range_zero, List.flatMap_nil, List.count_nil]
    split_ifs <;> omega
  | succ n ih =>
    rw [List.range_succ, List.flatMap_append, List.count_append, ih]
    have htail : (([n] : List Nat).flatMap
          (fun i => [(u, s + i), (v, s + i)])).count (a, b) =
        (if a = u ∧ b = s + n then 1 else 0) +
        (if a = v ∧ b = s + n then 1 else 0) := by
      simp only [List.flatMap_cons, List.flatMap_nil, List.append_nil,
        List.count_cons, List.count_nil, Prod.mk.injEq, beq_iff_eq]
      split_ifs <;> omega
    rw [htail]
    split_ifs <;> omega

/-- C9.  For every corner pair with `x0 < x1` and `y0 < y1` (u16
coordinates), `draw_rectangle` plots the two horizontal edges over the full
inclusive x-range and the two vertical edges only over the open interior
y-range, so every edge pixel — the four corners included — is plotted
exactly once, and nothing else is plotted. -/
theorem draw_rectangle_edges (x0 y0 x1 y1 px py : Nat)
    (h1 : x0 < x1) (h2 : y0 < y1) (h3 : x1 ≤ 65535) (h4 : y1 ≤ 65535) :
    (rect_pixels x0 y0 x1 y1).count (px, py) =
      if ((py = y0 ∨ py = y1) ∧ x0 ≤ px ∧ px ≤ x1) ∨
         ((px = x0 ∨ px = x1) ∧ y0 ≤ py ∧ py ≤ y1) then 1 else 0 := by
  have hx : x0 ≤ x1 := le_of_lt h1
  have hy : y0 ≤ y1 := le_of_lt h2
  simp only [rect_pixels, if_pos hx, if_pos hy]
  rw [List.count_append, count_hsegs, count_vsegs]
  split_ifs <;> omega

/-- Witness for C9 at `draw_rectangle(50,50,150,150)`: the corner (50,50)
is plotted exactly once. -/
theorem draw_rectangle_edges_witness :
    (rect_pixels 50 50 150 150).count (50, 50) = 1 :=
  (draw_rectangle_edges 50 50 150 150 50 50 (by decide) (by decide)
    (by decide) (by decide)).trans (by decide)

/-! ## `draw_line` (src/src/lib.rs, lines 266-287)

Bresenham's algorithm over `i16` values (modelled as `Int` with explicit
range checks).  The source loop is unbounded (`loop { ... }`); the model
takes a fuel argument, and `draw_line` passes `dx - dy + 1` fuel, which the
endpoint theorem shows is enough for every non-overflowing run. -/

/-- The Rust `as i16` cast of a `u16` value. -/
def toI16 (v : Nat) : Int := if v < 32768 then (v : Int) else (v : Int) - 65536

/-- The Rust `as u16` cast of an `i16` value. -/
def toU16 (v : Int) : Nat := (v % 65536).toNat

/-- Checked `i16` arithmetic: a result outside `[-32768, 32767]` is an
overflow panic. -/
def chkI16 (v : Int) : Option Int :=
  if -32768 ≤ v ∧ v ≤ 32767 then some v else none

/-- Checked `i16::abs`: panics exactly at `i16::MIN`. -/
def absI16 (v : Int) : Option Int :=
  if v = -32768 then none else some |v|

/-- The loop of `draw_line`:
```
loop {
    self.set_pixel(x as u16, y as u16);
    if x == x1 as i16 && y == y1 as i16 { break; }
    let e2 = 2 * err;                       // i16 mul: overflow panics
    if e2 >= dy { err += dy; x += sx; }     // i16 adds: overflow panics
    if e2 <= dx { err += dx; y += sy; }
}
```
producing the list of pixels passed to `set_pixel`, in order.  `none`
models a panic (or fuel exhaustion, which `draw_line`'s fuel choice rules
out). -/
def draw_line_loop (X1 Y1 dx dy sx sy : Int) :
    Nat → Int → Int → Int → Option (List (Nat × Nat))
  | 0, _, _, _ => none
  | fuel + 1, x, y, err =>
    if x = X1 ∧ y = Y1 then some [(toU16 x, toU16 y)]
    else
      (chkI16 (2 * err)).bind (fun e2 =>
        (if dy ≤ e2 then
            (chkI16 (err + dy)).bind (fun e =>
              (chkI16 (x + sx)).map (fun xx => (e, xx)))
          else some (err, x)).bind (fun s1 =>
          (if e2 ≤ dx then
              (chkI16 (s1.1 + dx)).bind (fun e =>
                (chkI16 (y + sy)).map (fun yy => (e, yy)))
            else some (s1.1, y)).bind (fun s2 =>
            (draw_line_loop X1 Y1 dx dy sx sy fuel s1.2 s2.2 s2.1).map
              (fun rest => (toU16 x, toU16 y) :: rest))))

/-- `draw_line` (lines 266-287):
```
let dx = (x1 as i16 - x0 as i16).abs();     // i16 sub: overflow panics
let sx = if x0 < x1 { 1 } else { -1 };      // u16 comparison
let dy = -(y1 as i16 - y0 as i16).abs();
let sy = if y0 < y1 { 1 } else { -1 };
let mut err = dx + dy;                      // i16 add: overflow panics
let (mut x, mut y) = (x0 as i16, y0 as i16);
loop { ... }
```
-/
def draw_line (x0 y0 x1 y1 : Nat) : Option (List (Nat × Nat)) :=
  (chkI16 (toI16 x1 - toI16 x0)).bind (fun dxa =>
    (absI16 dxa).bind (fun dx =>
      (chkI16 (toI16 y1 - toI16 y0)).bind (fun dya =>
        (absI16 dya).bind (fun dyv =>
          (chkI16 (-dyv)).bind (fun dy =>
            (chkI16 (dx + dy)).bind (fun err =>
              draw_line_loop (toI16 x1) (toI16 y1) dx dy
                (if x0 < x1 then 1 else -1) (if y0 < y1 then 1 else -1)
                ((dx - dy).toNat + 1) (toI16 x0) (toI16 y0) err))))))

/-- Counterexample to C8's universal part as stated: `draw_line(0,0,32767,0)`
overflows `i16` on the first iteration (`e2 = 2 * err = 65534`) and panics,
so it never plots the endpoint and terminates.  (In a release build the
wrapped value makes `e2 >= dy` false, `x` never advances toward 32767, and
the loop cannot break either.) -/
theorem draw_line_overflow_counterexample :
    draw_line 0 0 32767 0 = none := by decide

lemma draw_line_loop_endpoint
    (X0 Y0 X1 Y1 D E sx sy : Int)
    (hD0 : 0 ≤ D) (hD : D ≤ 8191) (hE0 : 0 ≤ E) (hE : E ≤ 8191)
    (hsx : sx = 1 ∨ sx = -1) (hsy : sy = 1 ∨ sy = -1)
    (hX1 : X1 = X0 + D * sx) (hY1 : Y1 = Y0 + E * sy)
    (hX00 : 0 ≤ X0) (hX0u : X0 ≤ 8191) (hX10 : 0 ≤ X1) (hX1u : X1 ≤ 8191)
    (hY00 : 0 ≤ Y0) (hY0u : Y0 ≤ 8191) (hY10 : 0 ≤ Y1) (hY1u : Y1 ≤ 8191) :
    ∀ fuel : Nat, ∀ a b err : Int,
      0 ≤ a → a ≤ D → 0 ≤ b → b ≤ E →
      err = D * (1 + b) - E * (1 + a) →
      -2 * E ≤ err → err ≤ 2 * D →
      D - a + (E - b) < (fuel : Int) →
      ∃ l, draw_line_loop X1 Y1 D (-E) sx sy fuel (X0 + a * sx) (Y0 + b * sy)
          err = some l ∧ l ≠ [] ∧ l.getLast? = some (toU16 X1, toU16 Y1) := by
  intro fuel
  induction fuel with
  | zero =>
    intro a b err ha0 haD hb0 hbE herr hr1 hr2 hm
    exact absurd hm (by push_cast; omega)
  | succ n ih =>
    intro a b err ha0 haD hb0 hbE herr hr1 hr2 hm
    have hxiff : ∀ t : Int, X0 + t * sx = X1 ↔ t = D := by
      intro t
      rcases hsx with rfl | rfl <;> rw [hX1] <;> constructor <;> intro h <;>
        omega
    have hyiff : ∀ t : Int, Y0 + t * sy = Y1 ↔ t = E := by
      intro t
      rcases hsy with rfl | rfl <;> rw [hY1] <;> constructor <;> intro h <;>
        omega
    by_cases hdone : a = D ∧ b = E
    · have hc : X0 + a * sx = X1 ∧ Y0 + b * sy = Y1 :=
        ⟨(hxiff a).2 hdone.1, (hyiff b).2 hdone.2⟩
      refine ⟨[(toU16 X1, toU16 Y1)], ?_, by simp, by simp⟩
      simp only [draw_line_loop]
      rw [if_pos hc, hc.1, hc.2]
    · have hnotbreak : ¬(X0 + a * sx = X1 ∧ Y0 + b * sy = Y1) := fun hcon =>
        hdone ⟨(hxiff a).1 hcon.1, (hyiff b).1 hcon.2⟩
      -- If x has reached its endpoint (a = D) but y has not, the error term
      -- satisfies 2*err < -E, so no further x-step is taken.
      have key2 : a = D → 2 * err < -E := by
        intro ha
        have hbE' : b < E := by
          rcases lt_or_eq_of_le hbE with h | h
          · exact h
          · exact absurd ⟨ha, h⟩ hdone
        have h1 : D * (1 + b) ≤ D * E :=
          mul_le_mul_of_nonneg_left (by omega) hD0
        have hexp : 2 * err = 2 * (D * (1 + b)) - 2 * (E * (1 + D)) := by
          rw [herr, ha]; ring
        have h2 : E * (1 + D) = E + E * D := by ring
        have h3 : D * E = E * D := mul_comm D E
        have h4 : 1 ≤ E := by omega
        linarith
      -- Symmetrically, if y has reached its endpoint (b = E) but x has not,
      -- then D < 2*err, so no further y-step is taken.
      have key3 : b = E → D < 2 * err := by
        intro hb
        have haD' : a < D := by
          rcases lt_or_eq_of_le haD with h | h
          · exact h
          · exact absurd ⟨h, hb⟩ hdone
        have h1 : E * (1 + a) ≤ E * D :=
          mul_le_mul_of_nonneg_left (by omega) hE0
        have hexp : 2 * err = 2 * (D * (1 + E)) - 2 * (E * (1 + a)) := by
          rw [herr, hb]; ring
        have h2 : D * (1 + E) = D + D * E := by ring
        have h3 : E * D = D * E := mul_comm E D
        have h4 : 1 ≤ D := by omega
        linarith
      have he2 : chkI16 (2 * err) = some (2 * err) := by
        unfold chkI16; rw [if_pos (by constructor <;> omega)]
      by_cases hc1 : -E ≤ 2 * err
      · -- the x-branch is taken, so a < D
        have haD' : a < D := by
          rcases lt_or_eq_of_le haD with h | h
          · exact h
          · exact absurd (key2 h) (by omega)
        have hstep1 : chkI16 (err + -E) = some (err + -E) := by
          unfold chkI16; rw [if_pos (by constructor <;> omega)]
        have hstepx : chkI16 (X0 + a * sx + sx) = some (X0 + a * sx + sx) := by
          unfold chkI16
          rcases hsx with rfl | rfl <;> rw [if_pos (by constructor <;> omega)]
        by_cases hc2 : 2 * err ≤ D
        · -- diagonal step: both x and y advance
          have hbE' : b < E := by
            rcases lt_or_eq_of_le hbE with h | h
            · exact h
            · exact absurd (key3 h) (by omega)
          have hstep2 : chkI16 (err + -E + D) = some (err + -E + D) := by
            unfold chkI16; rw [if_pos (by constructor <;> omega)]
          have hstepy : chkI16 (Y0 + b * sy + sy) =
              some (Y0 + b * sy + sy) := by
            unfold chkI16
            rcases hsy with rfl | rfl <;>
              rw [if_pos (by constructor <;> omega)]
          obtain ⟨l', hl', hne', hlast'⟩ := ih (a + 1) (b + 1) (err + -E + D)
            (by omega) (by omega) (by omega) (by omega)
            (by rw [herr]; ring) (by omega) (by omega) (by push_cast at hm ⊢; omega)
          refine ⟨(toU16 (X0 + a * sx), toU16 (Y0 + b * sy)) :: l', ?_,
            by simp, ?_⟩
          · simp only [draw_line_loop]
            rw [if_neg hnotbreak, he2]
            simp only [Option.some_bind, if_pos hc1, if_pos hc2, hstep1,
              hstepx, hstep2, hstepy, Option.map_some']
            rw [show X0 + a * sx + sx = X0 + (a + 1) * sx from by ring,
              show Y0 + b * sy + sy = Y0 + (b + 1) * sy from by ring, hl',
              Option.map_some']
          · cases l' with
            | nil => exact absurd rfl hne'
            | cons c t => rw [List.getLast?_cons_cons]; exact hlast'
        · -- x-only step
          obtain ⟨l', hl', hne', hlast'⟩ := ih (a + 1) b (err + -E)
            (by omega) (by omega) (by omega) (by omega)
            (by rw [herr]; ring) (by omega) (by omega) (by push_cast at hm ⊢; omega)
          refine ⟨(toU16 (X0 + a * sx), toU16 (Y0 + b * sy)) :: l', ?_,
            by simp, ?_⟩
          · simp only [draw_line_loop]
            rw [if_neg hnotbreak, he2]
            simp only [Option.some_bind, if_pos hc1, if_neg hc2, hstep1,
              hstepx, Option.map_some']
            rw [show X0 + a * sx + sx = X0 + (a + 1) * sx from by ring, hl',
              Option.map_some']
          · cases l' with
            | nil => exact absurd rfl hne'
            | cons c t => rw [List.getLast?_cons_cons]; exact hlast'
      · -- y-only step (when no x-step is possible, 2*err < -E ≤ 0 ≤ D)
        have hc2 : 2 * err ≤ D := by omega
        have hbE' : b < E := by
          rcases lt_or_eq_of_le hbE with h | h
          · exact h
          · exact absurd (key3 h) (by omega)
        have hstep2 : chkI16 (err + D) = some (err + D) := by
          unfold chkI16; rw [if_pos (by constructor <;> omega)]
        have hstepy : chkI16 (Y0 + b * sy + sy) =
            some (Y0 + b * sy + sy) := by
          unfold chkI16
          rcases hsy with rfl | rfl <;> rw [if_pos (by constructor <;> omega)]
        obtain ⟨l', hl', hne', hlast'⟩ := ih a (b + 1) (err + D)
          (by omega) (by omega) (by omega) (by omega)
          (by rw [herr]; ring) (by omega) (by omega) (by push_cast at hm ⊢; omega)
        refine ⟨(toU16 (X0 + a * sx), toU16 (Y0 + b * sy)) :: l', ?_,
          by simp, ?_⟩
        · simp only [draw_line_loop]
          rw [if_neg hnotbreak, he2]
          simp only [Option.some_bind, if_neg hc1, if_pos hc2, hstep2,
            hstepy, Option.map_some']
          rw [show Y0 + b * sy + sy = Y0 + (b + 1) * sy from by ring, hl',
            Option.map_some']
        · cases l' with
          | nil => exact absurd rfl hne'
          | cons c t => rw [List.getLast?_cons_cons]; exact hlast'

/-- Unfolding of `draw_line`'s prologue for in-range coordinates: all the
checked `i16` computations succeed and the loop is entered with
`dx = |x1 - x0|`, `dy = -|y1 - y0|`, `err = dx + dy`. -/
lemma draw_line_eq_loop (x0 y0 x1 y1 : Nat)
    (h1 : x0 ≤ 8191) (h2 : y0 ≤ 8191) (h3 : x1 ≤ 8191) (h4 : y1 ≤ 8191) :
    draw_line x0 y0 x1 y1 =
      draw_line_loop (x1 : Int) (y1 : Int)
        |(x1 : Int) - (x0 : Int)| (-|(y1 : Int) - (y0 : Int)|)
        (if x0 < x1 then 1 else -1) (if y0 < y1 then 1 else -1)
        ((|(x1 : Int) - (x0 : Int)| + |(y1 : Int) - (y0 : Int)|).toNat + 1)
        (x0 : Int) (y0 : Int)
        (|(x1 : Int) - (x0 : Int)| - |(y1 : Int) - (y0 : Int)|) := by
  have ht0 : toI16 x0 = (x0 : Int) := by unfold toI16; rw [if_pos (by omega)]
  have ht1 : toI16 x1 = (x1 : Int) := by unfold toI16; rw [if_pos (by omega)]
  have ht2 : toI16 y0 = (y0 : Int) := by unfold toI16; rw [if_pos (by omega)]
  have ht3 : toI16 y1 = (y1 : Int) := by unfold toI16; rw [if_pos (by omega)]
  have habx : |(x1 : Int) - (x0 : Int)| ≤ 8191 :=
    abs_le.mpr ⟨by omega, by omega⟩
  have habx0 : 0 ≤ |(x1 : Int) - (x0 : Int)| := abs_nonneg _
  have haby : |(y1 : Int) - (y0 : Int)| ≤ 8191 :=
    abs_le.mpr ⟨by omega, by omega⟩
  have haby0 : 0 ≤ |(y1 : Int) - (y0 : Int)| := abs_nonneg _
  have hc1 : chkI16 ((x1 : Int) - (x0 : Int)) =
      some ((x1 : Int) - (x0 : Int)) := by
    unfold chkI16; rw [if_pos ⟨by omega, by omega⟩]
  have ha1 : absI16 ((x1 : Int) - (x0 : Int)) =
      some |(x1 : Int) - (x0 : Int)| := by
    unfold absI16; rw [if_neg (by omega)]
  have hc2 : chkI16 ((y1 : Int) - (y0 : Int)) =
      some ((y1 : Int) - (y0 : Int)) := by
    unfold chkI16; rw [if_pos ⟨by omega, by omega⟩]
  have ha2 : absI16 ((y1 : Int) - (y0 : Int)) =
      some |(y1 : Int) - (y0 : Int)| := by
    unfold absI16; rw [if_neg (by omega)]
  have hc3 : chkI16 (-|(y1 : Int) - (y0 : Int)|) =
      some (-|(y1 : Int) - (y0 : Int)|) := by
    unfold chkI16
    rw [if_pos ⟨by linarith, by linarith⟩]
  have hc4 : chkI16 (|(x1 : Int) - (x0 : Int)| + -|(y1 : Int) - (y0 : Int)|) =
      some (|(x1 : Int) - (x0 : Int)| + -|(y1 : Int) - (y0 : Int)|) := by
    unfold chkI16
    rw [if_pos ⟨by linarith, by linarith⟩]
  unfold draw_line
  rw [ht0, ht1, ht2, ht3, hc1, Option.some_bind, ha1, Option.some_bind,
    hc2, Option.some_bind, ha2, Option.some_bind, hc3, Option.some_bind,
    hc4, Option.some_bind,
    show |(x1 : Int) - (x0 : Int)| - -|(y1 : Int) - (y0 : Int)| =
      |(x1 : Int) - (x0 : Int)| + |(y1 : Int) - (y0 : Int)| from by ring,
    show |(x1 : Int) - (x0 : Int)| + -|(y1 : Int) - (y0 : Int)| =
      |(x1 : Int) - (x0 : Int)| - |(y1 : Int) - (y0 : Int)| from by ring]

/-- C8 (amended).  `draw_line(0,0,3,3)` calls `set_pixel` exactly on
`(0,0), (1,1), (2,2), (3,3)` in that order; and for every endpoint pair
with all coordinates at most 8191 (so that none of the `i16` intermediate
computations can overflow), `draw_line` terminates after plotting the final
pixel `(x1, y1)` — the endpoint is the last pixel plotted. -/
theorem draw_line_endpoint (x0 y0 x1 y1 : Nat)
    (h1 : x0 ≤ 8191) (h2 : y0 ≤ 8191) (h3 : x1 ≤ 8191) (h4 : y1 ≤ 8191) :
    draw_line 0 0 3 3 = some [(0, 0), (1, 1), (2, 2), (3, 3)] ∧
    ∃ l, draw_line x0 y0 x1 y1 = some l ∧ l ≠ [] ∧
      l.getLast? = some (x1, y1) := by
  refine ⟨by decide, ?_⟩
  rw [draw_line_eq_loop x0 y0 x1 y1 h1 h2 h3 h4]
  have habx : |(x1 : Int) - (x0 : Int)| ≤ 8191 :=
    abs_le.mpr ⟨by omega, by omega⟩
  have habx0 : 0 ≤ |(x1 : Int) - (x0 : Int)| := abs_nonneg _
  have haby : |(y1 : Int) - (y0 : Int)| ≤ 8191 :=
    abs_le.mpr ⟨by omega, by omega⟩
  have haby0 : 0 ≤ |(y1 : Int) - (y0 : Int)| := abs_nonneg _
  have hsx : (if x0 < x1 then (1 : Int) else -1) = 1 ∨
      (if x0 < x1 then (1 : Int) else -1) = -1 := by
    split_ifs <;> simp
  have hsy : (if y0 < y1 then (1 : Int) else -1) = 1 ∨
      (if y0 < y1 then (1 : Int) else -1) = -1 := by
    split_ifs <;> simp
  have hX1 : (x1 : Int) = (x0 : Int) +
      |(x1 : Int) - (x0 : Int)| * (if x0 < x1 then (1 : Int) else -1) := by
    rcases Nat.lt_or_ge x0 x1 with h | h
    · rw [if_pos h, abs_of_nonneg (by omega : (0 : Int) ≤ (x1 : Int) - x0)]
      ring
    · rw [if_neg (by omega), abs_of_nonpos (by omega : (x1 : Int) - x0 ≤ 0)]
      ring
  have hY1 : (y1 : Int) = (y0 : Int) +
      |(y1 : Int) - (y0 : Int)| * (if y0 < y1 then (1 : Int) else -1) := by
    rcases Nat.lt_or_ge y0 y1 with h | h
    · rw [if_pos h, abs_of_nonneg (by omega : (0 : Int) ≤ (y1 : Int) - y0)]
      ring
    · rw [if_neg (by omega), abs_of_nonpos (by omega : (y1 : Int) - y0 ≤ 0)]
      ring
  have htn : ((|(x1 : Int) - (x0 : Int)| + |(y1 : Int) - (y0 : Int)|).toNat
      : Int) = |(x1 : Int) - (x0 : Int)| + |(y1 : Int) - (y0 : Int)| :=
    Int.toNat_of_nonneg (by linarith)
  obtain ⟨l, hl, hne, hlast⟩ := draw_line_loop_endpoint
    (x0 : Int) (y0 : Int) (x1 : Int) (y1 : Int)
    |(x1 : Int) - (x0 : Int)| |(y1 : Int) - (y0 : Int)|
    (if x0 < x1 then (1 : Int) else -1) (if y0 < y1 then (1 : Int) else -1)
    habx0 habx haby0 haby hsx hsy hX1 hY1
    (by omega) (by omega) (by omega) (by omega)
    (by omega) (by omega) (by omega) (by omega)
    ((|(x1 : Int) - (x0 : Int)| + |(y1 : Int) - (y0 : Int)|).toNat + 1)
    0 0 (|(x1 : Int) - (x0 : Int)| - |(y1 : Int) - (y0 : Int)|)
    le_rfl habx0 le_rfl haby0
    (by ring) (by linarith) (by linarith)
    (by push_cast [htn]; linarith)
  rw [show (x0 : Int) + 0 * (if x0 < x1 then (1 : Int) else -1) = (x0 : Int)
      from by ring,
    show (y0 : Int) + 0 * (if y0 < y1 then (1 : Int) else -1) = (y0 : Int)
      from by ring] at hl
  have hu1 : toU16 (x1 : Int) = x1 := by
    unfold toU16
    rw [Int.emod_eq_of_lt (by omega) (by omega)]
    exact Int.toNat_natCast x1
  have hu2 : toU16 (y1 : Int) = y1 := by
    unfold toU16
    rw [Int.emod_eq_of_lt (by omega) (by omega)]
    exact Int.toNat_natCast y1
  exact ⟨l, hl, hne, by rw [hlast, hu1, hu2]⟩

/-- Witness for C8 (amended) at the concrete endpoints `(2,1)` to `(9,5)`:
the run terminates and the last plotted pixel is `(9, 5)`. -/
theorem draw_line_endpoint_witness :
    draw_line 0 0 3 3 = some [(0, 0), (1, 1), (2, 2), (3, 3)] ∧
    ∃ l, draw_line 2 1 9 5 = some l ∧ l ≠ [] ∧ l.getLast? = some (9, 5) :=
  ⟨(draw_line_endpoint 2 1 9 5 (by decide) (by decide) (by decide)
      (by decide)).1,
   (draw_line_endpoint 2 1 9 5 (by decide) (by decide) (by decide)
      (by decide)).2⟩
